import Mathlib

/-!
Verification of the `roc` build helper module
(`site_scons/site_tools/roc/helpers.py`).

The module's core logic is embedded shallowly:

* `CompilerVersion` : parsing a dotted version out of the combined
  stdout/stderr text of `compiler --version` and `compiler -dumpversion`,
  with the regex strategies of the source (the Python regexes are
  specialised to executable matchers over `List Char`);
* `CompilerTarget` : locating the `Target:` line of `compiler -v -E -`
  output and normalising the target triple to the 4-component form;
* `CheckLibWithHeaderExpr` : the library/header feature probe and its
  mutation of the link-library list.

Process invocations are modelled by their observable result: an
`Option (List Char)` that is `none` when spawning the executable raises
(executable missing), and `some out` for the captured combined output
text.  Python exceptions swallowed by the source's `try/except` blocks
correspond to `none` results of the embedded functions.
-/

namespace Roc

/-- Python `\s` for byte strings: space, tab, newline, carriage return,
vertical tab, form feed. -/
def isPySpace (c : Char) : Bool :=
  c = ' ' || c = '\t' || c = '\n' || c = '\r' || c = '\x0b' || c = '\x0c'

/-- Python `\w` for byte strings with no locale flags: `[a-zA-Z0-9_]`. -/
def isWordChar (c : Char) : Bool :=
  ('0' ≤ c && c ≤ '9') || ('a' ≤ c && c ≤ 'z') || ('A' ≤ c && c ≤ 'Z') || c = '_'

/-- Python `[0-9]`. -/
def isDigitChar (c : Char) : Bool :=
  '0' ≤ c && c ≤ '9'

/-- Splitting on a separator character, as Python `str.split(sep)`:
no collapsing of adjacent separators, and the empty string yields one
empty component. -/
def splitOn (c : Char) : List Char → List (List Char)
  | [] => [[]]
  | x :: xs =>
    if x = c then [] :: splitOn c xs
    else
      match splitOn c xs with
      | [] => [[x]]
      | h :: t => (x :: h) :: t

/-- Joining with a separator character, as Python `sep.join(parts)`. -/
def joinOn (c : Char) : List (List Char) → List Char
  | [] => []
  | [x] => x
  | x :: y :: ys => x ++ c :: joinOn c (y :: ys)

theorem splitOn_ne_nil (c : Char) (s : List Char) : splitOn c s ≠ [] := by
  cases s with
  | nil => simp [splitOn]
  | cons x xs =>
    simp only [splitOn]
    by_cases hx : x = c
    · simp [hx]
    · simp only [hx, if_false]
      cases splitOn c xs <;> simp

/-- Rejoining the split components on the same separator recovers the
original string. -/
theorem joinOn_splitOn (c : Char) (s : List Char) : joinOn c (splitOn c s) = s := by
  induction s with
  | nil => rfl
  | cons x xs ih =>
    simp only [splitOn]
    by_cases hx : x = c
    · subst hx
      simp only [if_pos rfl]
      rcases hr : splitOn x xs with _ | ⟨h, t⟩
      · exact absurd hr (splitOn_ne_nil x xs)
      · rw [hr] at ih
        simp [joinOn, ih]
    · simp only [hx, if_false]
      rcases hr : splitOn c xs with _ | ⟨h, t⟩
      · exact absurd hr (splitOn_ne_nil c xs)
      · rw [hr] at ih
        cases t with
        | nil => simp_all [joinOn]
        | cons u us => simp_all [joinOn]

/-- Normalisation of a captured target triple, as in `CompilerTarget`:
split on `-`; with exactly 3 components insert `pc` as the vendor; with
exactly 4 components replace a literal `unknown` vendor by `pc`;
otherwise leave the components untouched; rejoin on `-`. -/
def normalizeTriple (s : List Char) : List Char :=
  let parts := splitOn '-' s
  if parts.length = 3 then
    match parts with
    | p0 :: rest => joinOn '-' (p0 :: String.toList "pc" :: rest)
    | [] => joinOn '-' parts
  else if parts.length = 4 then
    match parts with
    | p0 :: p1 :: rest =>
      if p1 = String.toList "unknown" then joinOn '-' (p0 :: String.toList "pc" :: rest)
      else joinOn '-' parts
    | _ => joinOn '-' parts
  else joinOn '-' parts

theorem normalizeTriple_three (s a o b : List Char) (h : splitOn '-' s = [a, o, b]) :
    normalizeTriple s = joinOn '-' [a, String.toList "pc", o, b] := by
  simp [normalizeTriple, h]

theorem normalizeTriple_four_unknown (s a v o b : List Char)
    (h : splitOn '-' s = [a, v, o, b]) (hv : v = String.toList "unknown") :
    normalizeTriple s = joinOn '-' [a, String.toList "pc", o, b] := by
  simp [normalizeTriple, h, hv]

theorem normalizeTriple_four_other (s a v o b : List Char)
    (h : splitOn '-' s = [a, v, o, b]) (hv : v ≠ String.toList "unknown") :
    normalizeTriple s = s := by
  have hj := joinOn_splitOn '-' s
  rw [h] at hj
  have hv' : v ≠ ['u', 'n', 'k', 'n', 'o', 'w', 'n'] := fun hc => hv (by rw [hc]; rfl)
  simp [normalizeTriple, h, hv', hj]

theorem normalizeTriple_passthrough (s : List Char)
    (h3 : (splitOn '-' s).length ≠ 3) (h4 : (splitOn '-' s).length ≠ 4) :
    normalizeTriple s = s := by
  have hj := joinOn_splitOn '-' s
  simp [normalizeTriple, h3, h4, hj]

/-- Longest run of digits at the head of the text: the greedy `[0-9]+`.
Returns the digits and the remaining text. -/
def takeDigits : List Char → List Char × List Char
  | [] => ([], [])
  | c :: cs =>
    if isDigitChar c then
      let p := takeDigits cs
      (c :: p.1, p.2)
    else ([], c :: cs)

/-- Match `n` dot-separated digit groups (`[0-9]+(\.[0-9]+)*`) at the head
of the text: the body of the two version regexes of the source
(`n = 3` for the dotted triple, `n = 2` for the dotted pair).  Each group
is the maximal digit run, as the greedy regex with a following literal
`.` admits no shorter backtrack. -/
def matchDotted : Nat → List Char → Option (List Char × List Char)
  | 0, _ => none
  | 1, s =>
    let p := takeDigits s
    if p.1.isEmpty then none else some p
  | n + 2, s =>
    let p := takeDigits s
    if p.1.isEmpty then none
    else
      match p.2 with
      | '.' :: rest =>
        match matchDotted (n + 1) rest with
        | some q => some (p.1 ++ '.' :: q.1, q.2)
        | none => none
      | _ => none

/-- The trailing `\b` of the version regexes: the matched digits are
followed by end of text or a non-word character.  (The character after a
maximal digit run is never a digit, so only letters and `_` can refuse
the boundary.) -/
def noWordAfter : List Char → Bool
  | [] => true
  | c :: _ => !isWordChar c

/-- The leading `\b` of the version regexes: the first matched character
is a digit, so the boundary holds exactly when the preceding character
is absent or a non-word character. -/
def boundaryBefore : Option Char → Bool
  | none => true
  | some c => !isWordChar c

/-- Match `\b[0-9]+(\.[0-9]+)*\b` with `n` groups at the current
position, `prev` being the character just before it. -/
def matchVerAt (n : Nat) (prev : Option Char) (s : List Char) : Option (List Char) :=
  if boundaryBefore prev then
    match matchDotted n s with
    | some p => if noWordAfter p.2 then some p.1 else none
    | none => none
  else none

/-- Leftmost search for the version pattern, scanning positions left to
right as `re.search` does. -/
def searchVerAux (n : Nat) : Option Char → List Char → Option (List Char)
  | _, [] => none
  | prev, c :: cs =>
    match matchVerAt n prev (c :: cs) with
    | some m => some m
    | none => searchVerAux n (some c) cs

/-- `re.search` of the version regex with `n` dotted groups, returning
the matched (captured) text. -/
def searchVer (n : Nat) (s : List Char) : Option (List Char) :=
  searchVerAux n none s

/-- Match a literal character sequence at the head of the text,
returning the remainder. -/
def matchLit : List Char → List Char → Option (List Char)
  | [], s => some s
  | _ :: _, [] => none
  | p :: ps, c :: cs => if c = p then matchLit ps cs else none

/-- Match greedy `\s+` at the head of the text. -/
def matchSpaces1 : List Char → Option (List Char)
  | [] => none
  | c :: cs => if isPySpace c then some (cs.dropWhile isPySpace) else none

/-- Match `(?:LLVM|clang)\s+version\s+` followed by the `n`-group dotted
version pattern, at the current position.  The `\b` before the digits
always holds there (the preceding character is whitespace), so only the
trailing boundary is checked. -/
def matchMarkedAt (n : Nat) (s : List Char) : Option (List Char) :=
  match (match matchLit (String.toList "LLVM") s with
         | some r => some r
         | none => matchLit (String.toList "clang") s) with
  | none => none
  | some s1 =>
    match matchSpaces1 s1 with
    | none => none
    | some s2 =>
      match matchLit (String.toList "version") s2 with
      | none => none
      | some s3 =>
        match matchSpaces1 s3 with
        | none => none
        | some s4 =>
          match matchDotted n s4 with
          | some p => if noWordAfter p.2 then some p.1 else none
          | none => none

/-- Leftmost search for the LLVM/clang-marked version pattern. -/
def searchMarked (n : Nat) : List Char → Option (List Char)
  | [] => none
  | c :: cs =>
    match matchMarkedAt n (c :: cs) with
    | some m => some m
    | none => searchMarked n cs

/-- The first loop of `getverstr`: search the full `--version` text for
the marked pattern with the dotted triple first, then with the dotted
pair. -/
def findMarked (s : List Char) : Option (List Char) :=
  match searchMarked 3 s with
  | some m => some m
  | none => searchMarked 2 s

/-- After a `(`, match `[^)]+\)`: skip to the first closing paren,
requiring at least one character of content.  Returns the text after the
closing paren. -/
def dropToParen : List Char → Option (List Char)
  | [] => none
  | c :: cs => if c = ')' then some cs else dropToParen cs

/-- Match the body of a parenthesised group right after its `(`:
fails on an immediately closing paren (the `+` needs content) or a
missing one. -/
def scanParen : List Char → Option (List Char)
  | [] => none
  | c :: cs => if c = ')' then none else dropToParen cs

/-- One fuelled pass of `re.sub` with pattern `\([^)]+\)` and empty
replacement: scan left to right, deleting each parenthesised group.
The fuel dominates the text length at every call. -/
def stripParensF : Nat → List Char → List Char
  | 0, s => s
  | _ + 1, [] => []
  | fuel + 1, c :: cs =>
    if c = '(' then
      match scanParen cs with
      | some rest => stripParensF fuel rest
      | none => c :: stripParensF fuel cs
    else c :: stripParensF fuel cs

/-- `re.sub(r'\([^)]+\)', '', text)`: drop all parenthesised substrings. -/
def stripParens (s : List Char) : List Char :=
  stripParensF s.length s

/-- Python `int` on a digit string. -/
def parseNatDigits (d : List Char) : Nat :=
  d.foldl (fun n c => n * 10 + (c.toNat - 48)) 0

/-- `tuple(map(int, ver.split('.')))`. -/
def parseVer (v : List Char) : List Nat :=
  (splitOn '.' v).map parseNatDigits

/-- The inner regex loop of the final fallback of `getverstr`: against
one text, try the dotted triple first, then the dotted pair. -/
def firstVer (t : List Char) : Option (List Char) :=
  match searchVer 3 t with
  | some v => some v
  | none => searchVer 2 t

/-- The outer text loop of the final fallback of `getverstr`: the texts
in priority order, each tried with both regexes before moving on. -/
def tryTexts : List (List Char) → Option (List Char)
  | [] => none
  | t :: ts =>
    match firstVer t with
    | some v => some v
    | none => tryTexts ts

/-- `getverstr`, over the observable results of the two process
invocations.  `fullOut` is the combined output of `compiler --version`
(`none` when spawning raises), `dumpOut` likewise for
`compiler -dumpversion`; a raised and swallowed exception on either
spawn yields `none` overall. -/
def getverstr (fullOut dumpOut : Option (List Char)) : Option (List Char) :=
  match fullOut with
  | none => none
  | some full =>
    match findMarked full with
    | some v => some v
    | none =>
      match dumpOut with
      | none => none
      | some dump => tryTexts [dump, stripParens full, full]

/-- `CompilerVersion`: parse `getverstr`'s match into a tuple of
integers, or propagate the "not found" sentinel. -/
def CompilerVersion (fullOut dumpOut : Option (List Char)) : Option (List Nat) :=
  match getverstr fullOut dumpOut with
  | some v => some (parseVer v)
  | none => none

/-- Number of external processes successfully spawned by a
`CompilerVersion` call: the `--version` process, plus the
`-dumpversion` process when the marked search fails and the second
spawn does not raise. -/
def CompilerVersionSpawnCount (fullOut dumpOut : Option (List Char)) : Nat :=
  match fullOut with
  | none => 0
  | some full =>
    match findMarked full with
    | some _ => 1
    | none =>
      match dumpOut with
      | none => 1
      | some _ => 2

/-- Number of external processes successfully spawned by a
`CompilerTarget` call. -/
def CompilerTargetSpawnCount (out : Option (List (List Char))) : Nat :=
  match out with
  | none => 0
  | some _ => 1

/-- `re.match(r'^Target:\s*(\S+)', line)`: the literal prefix, greedy
whitespace, then a maximal non-empty run of non-space characters. -/
def matchTargetLine (line : List Char) : Option (List Char) :=
  match matchLit (String.toList "Target:") line with
  | none => none
  | some rest =>
    let afterSpaces := rest.dropWhile isPySpace
    let cap := afterSpaces.takeWhile (fun c => !isPySpace c)
    if cap.isEmpty then none else some cap

/-- The line loop of `CompilerTarget`: normalise and return the capture
of the first matching line. -/
def findTarget : List (List Char) → Option (List Char)
  | [] => none
  | line :: rest =>
    match matchTargetLine line with
    | some cap => some (normalizeTriple cap)
    | none => findTarget rest

/-- `CompilerTarget`, over the observable result of the single process
invocation `compiler -v -E -` (`none` when spawning raises; lines of
the combined output otherwise). -/
def CompilerTarget (out : Option (List (List Char))) : Option (List Char) :=
  match out with
  | none => none
  | some lines => findTarget lines

/-- Python `str.strip()`: drop leading and trailing whitespace. -/
def pyStrip (s : List Char) : List Char :=
  ((s.dropWhile isPySpace).reverse.dropWhile isPySpace).reverse

/-- `CheckLibWithHeaderExpr`, over the observable result of the
compile/link/run probe.  `envLibs` is the current link-library list
(`context.env['LIBS']`), `libsArg` the candidate list; `err` is the
`RunProg` failure flag (`true` when the probe fails to build or exits
non-zero) and `out` the probe's printed output.  The source reads
`libs[0]` for the probe's display name before anything else, so the
empty candidate list raises `IndexError`, modelled as `none`; otherwise
the candidates already in `envLibs` are filtered out, and on success the
filtered list is appended to `envLibs`. -/
def CheckLibWithHeaderExpr (envLibs libsArg : List (List Char)) (err : Bool)
    (out : List Char) : Option (Bool × List (List Char)) :=
  match libsArg with
  | [] => none
  | _ :: _ =>
    let libs := libsArg.filter (fun l => decide (¬ l ∈ envLibs))
    if err = false ∧ pyStrip out ≠ ['0'] then some (true, envLibs ++ libs)
    else some (false, envLibs)

/-- Claim C1: for every captured target-triple string, the normalization
step of `CompilerTarget` returns: for exactly 3 dash-separated components
`[arch, os, abi]`, the string rejoined as `[arch, pc, os, abi]`; for
exactly 4 components with vendor literally `unknown`, the string with
that component replaced by `pc`; for 4 components with any other vendor,
the input unchanged; and for any other component count, the input passed
through unnormalized. -/
theorem compilerTarget_normalize_cases (s : List Char) :
    (∀ a o b, splitOn '-' s = [a, o, b] →
        normalizeTriple s = joinOn '-' [a, String.toList "pc", o, b]) ∧
    (∀ a v o b, splitOn '-' s = [a, v, o, b] → v = String.toList "unknown" →
        normalizeTriple s = joinOn '-' [a, String.toList "pc", o, b]) ∧
    (∀ a v o b, splitOn '-' s = [a, v, o, b] → v ≠ String.toList "unknown" →
        normalizeTriple s = s) ∧
    ((splitOn '-' s).length ≠ 3 → (splitOn '-' s).length ≠ 4 → normalizeTriple s = s) :=
  ⟨fun a o b h => normalizeTriple_three s a o b h,
   fun a v o b h hv => normalizeTriple_four_unknown s a v o b h hv,
   fun a v o b h hv => normalizeTriple_four_other s a v o b h hv,
   fun h3 h4 => normalizeTriple_passthrough s h3 h4⟩

/-- Witness for C1: `x86_64-linux-gnu` has 3 components and normalizes
to `x86_64-pc-linux-gnu`. -/
theorem compilerTarget_normalize_cases_witness :
    splitOn '-' (String.toList "x86_64-linux-gnu") =
      [String.toList "x86_64", String.toList "linux", String.toList "gnu"] ∧
    normalizeTriple (String.toList "x86_64-linux-gnu") =
      joinOn '-' [String.toList "x86_64", String.toList "pc",
        String.toList "linux", String.toList "gnu"] :=
  ⟨by decide, (compilerTarget_normalize_cases (String.toList "x86_64-linux-gnu")).1
      (String.toList "x86_64") (String.toList "linux") (String.toList "gnu") (by decide)⟩

/-- Claim C9: for every target-triple string with exactly 4
dash-separated components whose second component is not `unknown`, the
normalization step is idempotent, and a single application leaves the
input unchanged. -/
theorem compilerTarget_normalize_idempotent (s a v o b : List Char)
    (h : splitOn '-' s = [a, v, o, b]) (hv : v ≠ String.toList "unknown") :
    normalizeTriple s = s ∧
    normalizeTriple (normalizeTriple s) = normalizeTriple s := by
  have h1 := normalizeTriple_four_other s a v o b h hv
  exact ⟨h1, by rw [h1]; exact h1⟩

/-- Witness for C9: `x86_64-redhat-linux-gnu` has 4 components with a
vendor other than `unknown` and is a fixed point of the normalization. -/
theorem compilerTarget_normalize_idempotent_witness :
    splitOn '-' (String.toList "x86_64-redhat-linux-gnu") =
      [String.toList "x86_64", String.toList "redhat",
        String.toList "linux", String.toList "gnu"] ∧
    (normalizeTriple (String.toList "x86_64-redhat-linux-gnu") =
        String.toList "x86_64-redhat-linux-gnu" ∧
      normalizeTriple (normalizeTriple (String.toList "x86_64-redhat-linux-gnu")) =
        normalizeTriple (String.toList "x86_64-redhat-linux-gnu")) :=
  ⟨by decide,
   compilerTarget_normalize_idempotent (String.toList "x86_64-redhat-linux-gnu")
     (String.toList "x86_64") (String.toList "redhat") (String.toList "linux")
     (String.toList "gnu") (by decide) (by decide)⟩

/-- Claim C2: whenever the `--version` output text contains an
LLVM/clang-marked version (the marked search succeeds with match `v`),
`CompilerVersion` returns exactly that marked version, whatever the
`-dumpversion` text and whatever other version-like substrings (such as
numbers in parenthesized portions) the texts hold. -/
theorem compilerVersion_marked_priority (full dump v : List Char)
    (h : findMarked full = some v) :
    CompilerVersion (some full) (some dump) = some (parseVer v) := by
  simp [CompilerVersion, getverstr, h]

/-- Witness for C2: a clang banner with an unrelated `99.0.0` in a
parenthesized portion, and a `-dumpversion` text also reading `99.0.0`,
still yields the marked `10.0.1`. -/
theorem compilerVersion_marked_priority_witness :
    findMarked
      (String.toList "clang version 10.0.1 (tags/RELEASE_1001/final) (based on LLVM 99.0.0)") =
      some (String.toList "10.0.1") ∧
    CompilerVersion
      (some (String.toList "clang version 10.0.1 (tags/RELEASE_1001/final) (based on LLVM 99.0.0)"))
      (some (String.toList "99.0.0")) = some [10, 0, 1] := by
  refine ⟨by decide, ?_⟩
  have h := compilerVersion_marked_priority
    (String.toList "clang version 10.0.1 (tags/RELEASE_1001/final) (based on LLVM 99.0.0)")
    (String.toList "99.0.0") (String.toList "10.0.1") (by decide)
  rw [h]
  decide

/-- Claim C3: when the `--version` text has no LLVM/clang-marked
version, `CompilerVersion` tries the dotted-triple and dotted-pair
regexes against the `-dumpversion` text first, then the
parenthesis-stripped `--version` text, then the full `--version` text,
returning the first match; in particular a dotted match in the
`-dumpversion` text decides the result. -/
theorem compilerVersion_fallback_order (full dump : List Char)
    (h : findMarked full = none) :
    (CompilerVersion (some full) (some dump) =
      Option.map parseVer
        (match firstVer dump with
         | some v => some v
         | none =>
           match firstVer (stripParens full) with
           | some v => some v
           | none => firstVer full)) ∧
    (∀ v, firstVer dump = some v →
        CompilerVersion (some full) (some dump) = some (parseVer v)) := by
  constructor
  · simp only [CompilerVersion, getverstr, h, tryTexts]
    rcases hd : firstVer dump with _ | v
    · rcases ht : firstVer (stripParens full) with _ | w
      · rcases hf : firstVer full with _ | u <;> simp
      · simp
    · simp
  · intro v hv
    simp [CompilerVersion, getverstr, h, tryTexts, hv]

/-- Witness for C3: a gcc banner with no marker; the `-dumpversion` text
`9.4.0` wins. -/
theorem compilerVersion_fallback_order_witness :
    findMarked (String.toList "gcc (Ubuntu 9.4.0-1ubuntu1) 9.4.0") = none ∧
    firstVer (String.toList "9.4.0\n") = some (String.toList "9.4.0") ∧
    CompilerVersion (some (String.toList "gcc (Ubuntu 9.4.0-1ubuntu1) 9.4.0"))
      (some (String.toList "9.4.0\n")) = some [9, 4, 0] := by
  refine ⟨by decide, by decide, ?_⟩
  have h := (compilerVersion_fallback_order
      (String.toList "gcc (Ubuntu 9.4.0-1ubuntu1) 9.4.0")
      (String.toList "9.4.0\n") (by decide)).2 (String.toList "9.4.0") (by decide)
  rw [h]
  decide

/-- Counterexample to C4 as stated: with `-dumpversion` output `7\n` and
a marker-free `--version` text containing `7.3.1`, `CompilerVersion`
returns `(7, 3, 1)` from the `--version` text, not `(7,)` — the bare
`7` matches neither dotted regex, so the dump text yields nothing. -/
theorem compilerVersion_dump_bare_seven_cex :
    CompilerVersion (some (String.toList "gcc (GCC) 7.3.1 20180303 (Red Hat 7.3.1-5)"))
        (some (String.toList "7\n")) = some [7, 3, 1] ∧
    CompilerVersion (some (String.toList "gcc (GCC) 7.3.1 20180303 (Red Hat 7.3.1-5)"))
        (some (String.toList "7\n")) ≠ some [7] := by
  exact ⟨by decide, by decide⟩

/-- Amended C4: with `-dumpversion` output `7\n` the dotted regexes find
nothing in the dump text, so the `--version` text's `7.3.1` is used; the
dump text is preferred exactly when it itself contains a dotted match,
as `7.0\n` is, which yields `(7, 0)`. -/
theorem compilerVersion_dump_bare_seven_amended :
    CompilerVersion (some (String.toList "gcc (GCC) 7.3.1 20180303 (Red Hat 7.3.1-5)"))
        (some (String.toList "7\n")) = some [7, 3, 1] ∧
    CompilerVersion (some (String.toList "gcc (GCC) 7.3.1 20180303 (Red Hat 7.3.1-5)"))
        (some (String.toList "7.0\n")) = some [7, 0] := by
  exact ⟨by decide, by decide⟩

/-- Claim C7: when the compiler executable does not exist (spawning the
first process raises, modelled as a `none` invocation result), both
`CompilerVersion` and `CompilerTarget` return the `none` sentinel; the
same holds when only the `-dumpversion` spawn of `CompilerVersion`
raises after a marker-free `--version` output. -/
theorem compiler_probes_not_found (d : Option (List Char)) (full : List Char) :
    CompilerVersion none d = none ∧ CompilerTarget none = none ∧
    (findMarked full = none → CompilerVersion (some full) none = none) := by
  refine ⟨rfl, rfl, fun h => ?_⟩
  simp [CompilerVersion, getverstr, h]

/-- Witness for C7: a marker-free `--version` output with a failed
`-dumpversion` spawn yields the sentinel. -/
theorem compiler_probes_not_found_witness :
    findMarked (String.toList "gcc 4.2") = none ∧
    CompilerVersion (some (String.toList "gcc 4.2")) none = none :=
  ⟨by decide, (compiler_probes_not_found none (String.toList "gcc 4.2")).2.2 (by decide)⟩

/-- Counterexample to C8 as stated: a `CompilerVersion` call whose
`--version` output has no LLVM/clang marker spawns two external
processes, not at most one. -/
theorem compilerVersion_spawn_two_cex :
    CompilerVersionSpawnCount (some (String.toList "gcc (GCC) 7.3.1"))
        (some (String.toList "7\n")) = 2 ∧
    ¬ CompilerVersionSpawnCount (some (String.toList "gcc (GCC) 7.3.1"))
        (some (String.toList "7\n")) ≤ 1 := by
  exact ⟨by decide, by decide⟩

/-- Amended C8: every operation spawns a bounded number of external
processes in sequence: `CompilerVersion` at most two (`--version`, then
`-dumpversion` when the marked search fails), `CompilerTarget` at most
one. -/
theorem compilerVersion_spawn_bound (f d : Option (List Char))
    (t : Option (List (List Char))) :
    CompilerVersionSpawnCount f d ≤ 2 ∧ CompilerTargetSpawnCount t ≤ 1 := by
  constructor
  · rcases f with _ | full
    · simp [CompilerVersionSpawnCount]
    · simp only [CompilerVersionSpawnCount]
      rcases findMarked full with _ | v
      · rcases d with _ | dump <;> simp
      · simp
  · rcases t with _ | lines <;> simp [CompilerTargetSpawnCount]

/-- Claim C5: for every probe invocation with a non-empty candidate
list, `CheckLibWithHeaderExpr` reports success exactly when the probe
program built and exited with zero status and its printed output,
stripped of whitespace, is not the literal string `0`; any other
printed text counts as success. -/
theorem checkLib_success_iff (envLibs libsArg : List (List Char)) (err : Bool)
    (out : List Char) (h : libsArg ≠ []) (b : Bool) (newLibs : List (List Char))
    (hres : CheckLibWithHeaderExpr envLibs libsArg err out = some (b, newLibs)) :
    b = true ↔ (err = false ∧ pyStrip out ≠ ['0']) := by
  rcases libsArg with _ | ⟨l0, ls⟩
  · exact absurd rfl h
  · by_cases hc : err = false ∧ pyStrip out ≠ ['0']
    · simp only [CheckLibWithHeaderExpr, if_pos hc, Option.some.injEq,
        Prod.mk.injEq] at hres
      simp [← hres.1, hc]
    · simp only [CheckLibWithHeaderExpr, if_neg hc, Option.some.injEq,
        Prod.mk.injEq] at hres
      simp [← hres.1, hc]

/-- Witness for C5: a probe printing `-1` (garbage by integer lights)
with zero exit status counts as success. -/
theorem checkLib_success_iff_witness :
    CheckLibWithHeaderExpr [] [String.toList "m"] false (String.toList " -1\n") =
      some (true, [String.toList "m"]) ∧
    (true = true ↔ (false = false ∧ pyStrip (String.toList " -1\n") ≠ ['0'])) :=
  ⟨by decide,
   checkLib_success_iff [] [String.toList "m"] false (String.toList " -1\n")
     (by decide) true [String.toList "m"] (by decide)⟩

/-- Claim C6: for every probe call with a non-empty candidate list, the
candidates already present in the link set are excluded from the
appended list, the probe outcome is still decided by the compile/run
result even when every candidate was filtered out, the filtered list is
appended exactly on success, and on a negative result the link set is
unchanged. -/
theorem checkLib_filter_append (envLibs libsArg : List (List Char)) (err : Bool)
    (out : List Char) (h : libsArg ≠ []) :
    ∃ b newLibs,
      CheckLibWithHeaderExpr envLibs libsArg err out = some (b, newLibs) ∧
      (∀ l, l ∈ libsArg.filter (fun l => decide (¬ l ∈ envLibs)) → ¬ l ∈ envLibs) ∧
      (b = true ↔ (err = false ∧ pyStrip out ≠ ['0'])) ∧
      (b = true → newLibs = envLibs ++ libsArg.filter (fun l => decide (¬ l ∈ envLibs))) ∧
      (b = false → newLibs = envLibs) := by
  rcases hl : libsArg with _ | ⟨l0, ls⟩
  · exact absurd hl h
  · have hmem : ∀ l, l ∈ (l0 :: ls).filter (fun l => decide (¬ l ∈ envLibs)) →
        ¬ l ∈ envLibs := by
      intro l hlmem
      have := List.of_mem_filter hlmem
      simpa using this
    by_cases hc : err = false ∧ pyStrip out ≠ ['0']
    · refine ⟨true, envLibs ++ (l0 :: ls).filter (fun l => decide (¬ l ∈ envLibs)),
        ?_, hmem, ?_, ?_, ?_⟩
      · simp [CheckLibWithHeaderExpr, if_pos hc]
      · simp [hc]
      · intro _; rfl
      · intro hb; cases hb
    · refine ⟨false, envLibs, ?_, hmem, ?_, ?_, ?_⟩
      · simp [CheckLibWithHeaderExpr, if_neg hc]
      · simp [hc]
      · intro hb; cases hb
      · intro _; rfl

/-- Witness for C6: requesting the already linked library `m` filters
it out, yet a successful probe still reports success and leaves the
link set with no duplicate appended. -/
theorem checkLib_filter_append_witness :
    ∃ b newLibs,
      CheckLibWithHeaderExpr [String.toList "m"] [String.toList "m"] false
          (String.toList "1\n") = some (b, newLibs) ∧
      (∀ l, l ∈ [String.toList "m"].filter
          (fun l => decide (¬ l ∈ [String.toList "m"])) →
        ¬ l ∈ [String.toList "m"]) ∧
      (b = true ↔ (false = false ∧ pyStrip (String.toList "1\n") ≠ ['0'])) ∧
      (b = true → newLibs = [String.toList "m"] ++ [String.toList "m"].filter
          (fun l => decide (¬ l ∈ [String.toList "m"]))) ∧
      (b = false → newLibs = [String.toList "m"]) :=
  checkLib_filter_append [String.toList "m"] [String.toList "m"] false
    (String.toList "1\n") (by decide)

/-- Claim C10: `CheckLibWithHeaderExpr` requires a non-empty candidate
list: on the empty list it raises `IndexError` when taking the display
name (modelled as the `none` outcome) rather than returning a negative
probe result, and with at least one candidate no exception occurs. -/
theorem checkLib_empty_libs (envLibs : List (List Char)) (err : Bool)
    (out : List Char) :
    CheckLibWithHeaderExpr envLibs [] err out = none ∧
    ∀ libsArg, libsArg ≠ [] →
      (CheckLibWithHeaderExpr envLibs libsArg err out).isSome = true := by
  refine ⟨rfl, fun libsArg hl => ?_⟩
  rcases libsArg with _ | ⟨l0, ls⟩
  · exact absurd rfl hl
  · by_cases hc : err = false ∧ pyStrip out ≠ ['0'] <;>
      simp [CheckLibWithHeaderExpr, hc]

/-- Witness for C10: the empty candidate list is the sole raising
input; a singleton candidate list returns a result. -/
theorem checkLib_empty_libs_witness :
    CheckLibWithHeaderExpr [] [] false [] = none ∧
    (CheckLibWithHeaderExpr [] [String.toList "a"] false []).isSome = true :=
  ⟨(checkLib_empty_libs [] false []).1,
   (checkLib_empty_libs [] false []).2 [String.toList "a"] (by decide)⟩

end Roc
